import Mathlib

/-!
Verification development for the velocity backend's sandboxed agent core:
the session worker pool (`app/agents/session_worker.py`), the event
translator (`on_stdout`), the caller-facing stream (`app/agents/__init__.py`,
`generate_response`), the Daytona sandbox manager
(`app/daytona_manager.py`, `execute_streaming`), the Slack proxy bridge
(`_handle_slack_proxy` / `_slack_proxy_call`), and the sandbox-side runner
entry point (`app/agents/sandbox_runner.py`, `main`).

Python values are shallowly embedded: JSON values become the inductive `J`,
decoded stdout lines become `RawLine` (the outcome of `json.loads` is an
input to the model), exceptions become `Exc`, and async queues become
explicit lists of enqueued items.
-/

set_option autoImplicit false

namespace Velocity

/-! ### JSON values -/

/-- A JSON value, as produced by `json.loads` / consumed by `json.dumps`. -/
inductive J where
  | jnull : J
  | jbool : Bool → J
  | jnum : Int → J
  | jstr : String → J
  | jarr : List J → J
  | jobj : List (String × J) → J

/-- Python type name of a JSON-decoded value, as it appears in
`AttributeError` messages (`json.loads` returns these types). -/
def pyTypeName : J → String
  | .jnull => "NoneType"
  | .jbool _ => "bool"
  | .jnum _ => "int"
  | .jstr _ => "str"
  | .jarr _ => "list"
  | .jobj _ => "dict"

/-! ### Exceptions -/

/-- The exceptions that arise in the worker's stdout-processing path. -/
inductive Exc where
  | runtimeError (msg : String)
  | keyError (key : String)
  | attributeError (typeName attrName : String)
deriving DecidableEq, Repr

/-! ### SDK message objects

These mirror the `claude_agent_sdk` message objects that
`session_worker.on_stdout` constructs and `generate_response` consumes. -/

/-- The `usage` dict of a `ResultMessage`, read via
`usage.get("input_tokens", 0)` / `usage.get("output_tokens", 0)`. -/
structure Usage where
  input_tokens : Nat
  output_tokens : Nat
deriving DecidableEq, Repr

/-- The `input` dict of a `ToolUseBlock`: the two keys `generate_response`
reads (`subagent_type`, `description`), plus the remaining payload. -/
structure ToolInput where
  subagentType : Option String
  description : Option String
  rest : J

/-- A content block of an `AssistantMessage`. -/
inductive Block where
  | textB (text : String)
  | toolUseB (name : String) (input : ToolInput)
  | toolResultB (content : String)

/-- The `delta` dict of a `content_block_delta` stream event. -/
inductive Delta where
  | textDelta (text : String)
  | thinkingDelta (thinking : String)
  | otherDelta
deriving DecidableEq, Repr

/-- The `event` dict of a `StreamEvent`. -/
inductive SEvent where
  | contentBlockDelta (delta : Delta)
  | otherEvent
deriving DecidableEq, Repr

/-- A message object yielded by the worker's `query_and_stream`. -/
inductive WMsg where
  | assistantMsg (content : List Block) (model : String)
  | streamEvent (sessionId : String) (event : SEvent) (parentToolUseId : Option String)
  | resultMsg (usage : Option Usage)

/-- An item enqueued on the caller's output queue: either a message object
or an exception object (re-raised by `query_and_stream`). -/
inductive QItem where
  | msgItem (m : WMsg)
  | excItem (e : Exc)

/-! ### Decoded stdout lines -/

/-- A decoded JSON object line, projected onto the keys `on_stdout` reads.
A `none` field means the key is absent from the dict. -/
structure JObj where
  type? : Option String
  text? : Option String
  agent? : Option String
  task? : Option String
  tool? : Option String
  params? : Option ToolInput
  message? : Option String
  tokensUsed? : Option Usage
  id? : Option String
  method? : Option String

/-- One raw stdout line, classified by the outcome of `json.loads`. -/
inductive RawLine where
  | notJson (raw : String)
  | jsonNonObj (v : J)
  | jsonObj (o : JObj)

/-! ### The event translator: `session_worker._SessionWorker._execute_query.on_stdout`

`on_stdout` parses one line, appends `text_delta` payloads to
`assistant_response_chunks`, enqueues translated SDK messages on `out_q`,
intercepts `slack_proxy` requests (spawning a background task), and catches
every exception: a `json.JSONDecodeError` is logged and dropped, any other
exception is enqueued on `out_q`. Returns
(new chunks, enqueued items, spawned proxy requests). -/
def on_stdout (modelOpus sid : String) (chunks : List String) (l : RawLine) :
    List String × List QItem × List JObj :=
  match l with
  | .notJson _ => (chunks, [], [])
  | .jsonNonObj v =>
      (chunks, [.excItem (.attributeError (pyTypeName v) "get")], [])
  | .jsonObj o =>
    match o.type? with
    | some "slack_proxy" => (chunks, [], [o])
    | some "text_delta" =>
      match o.text? with
      | none => (chunks, [.excItem (.keyError "text")], [])
      | some t =>
          (chunks ++ [t],
           [.msgItem (.streamEvent sid (.contentBlockDelta (.textDelta t)) none)], [])
    | some "thinking_delta" =>
      match o.text? with
      | none => (chunks, [.excItem (.keyError "text")], [])
      | some t =>
          (chunks,
           [.msgItem (.streamEvent sid (.contentBlockDelta (.thinkingDelta t)) none)], [])
    | some "agent_activity" =>
      match o.agent? with
      | none => (chunks, [.excItem (.keyError "agent")], [])
      | some a =>
        match o.task? with
        | none => (chunks, [.excItem (.keyError "task")], [])
        | some tk =>
            (chunks,
             [.msgItem (.assistantMsg
               [.toolUseB "Task" ⟨some a, some tk, .jobj []⟩] modelOpus)], [])
    | some "tool_call" =>
      match o.tool? with
      | none => (chunks, [.excItem (.keyError "tool")], [])
      | some tl =>
        match o.params? with
        | none => (chunks, [.excItem (.keyError "params")], [])
        | some ps =>
            (chunks, [.msgItem (.assistantMsg [.toolUseB tl ps] modelOpus)], [])
    | some "done" =>
        (chunks, [.msgItem (.resultMsg (some (o.tokensUsed?.getD ⟨0, 0⟩)))], [])
    | some "error" =>
      match o.message? with
      | none => (chunks, [.excItem (.keyError "message")], [])
      | some m => (chunks, [.excItem (.runtimeError m)], [])
    | _ => (chunks, [], [])

/-- Process a sequence of raw stdout lines, threading the chunk accumulator
and concatenating enqueued items and proxy requests in arrival order. -/
def processLines (modelOpus sid : String) (chunks : List String) :
    List RawLine → List String × List QItem × List JObj
  | [] => (chunks, [], [])
  | l :: ls =>
    let r1 := on_stdout modelOpus sid chunks l
    let r2 := processLines modelOpus sid r1.1 ls
    (r2.1, r1.2.1 ++ r2.2.1, r1.2.2 ++ r2.2.2)

/-- The caller-visible items one line contributes (independent of the
chunk accumulator state, as proved below). -/
def visibleItems (modelOpus sid : String) (l : RawLine) : List QItem :=
  (on_stdout modelOpus sid [] l).2.1

/-- The proxy requests one line spawns. -/
def spawnedProxies (l : RawLine) : List JObj :=
  (on_stdout "" "" [] l).2.2

/-- The event types `on_stdout` dispatches on, other than the internally
consumed `slack_proxy`. -/
def recognizedTypes : List String :=
  ["text_delta", "thinking_delta", "agent_activity", "tool_call", "done", "error"]

/-- Whether a raw line decodes as a JSON object whose `type` is recognized
and is not `slack_proxy`. -/
def isRecognizedNonProxyLine : RawLine → Bool
  | .jsonObj o =>
    match o.type? with
    | some t => recognizedTypes.contains t
    | none => false
  | _ => false

/-! ### Citation extraction: `app/agents/__init__._extract_citations`

The Python uses `re.findall` with the patterns
`https://linear\.app/[^\s\)\]]+` and `https://[^.\s]+\.slack\.com/[^\s\)\]]+`,
scanning left to right with non-overlapping matches. The scanners below use
an explicit fuel argument (initialized to the input length, which always
suffices) to stay structurally recursive and computable by `rfl`. -/

/-- Python regex whitespace class `\s` (ASCII part). -/
def pySpace (c : Char) : Bool :=
  c = ' ' || c = '\t' || c = '\n' || c = '\r' ||
  c = Char.ofNat 11 || c = Char.ofNat 12

/-- A character ending a URL match: the class `[^\s\)\]]` complement. -/
def urlStop (c : Char) : Bool :=
  pySpace c || c = ')' || c = ']'

/-- The literal head of the Linear URL pattern. -/
def linearPat : List Char := "https://linear.app/".toList

/-- The literal scheme head of the Slack URL pattern. -/
def httpsPat : List Char := "https://".toList

/-- The literal middle of the Slack URL pattern. -/
def slackPat : List Char := ".slack.com/".toList

/-- Scan for matches of `https://linear\.app/[^\s\)\]]+`. -/
def findLinearUrls : Nat → List Char → List String
  | 0, _ => []
  | _, [] => []
  | fuel + 1, c :: cs =>
    if linearPat.isPrefixOf (c :: cs) then
      let after := (c :: cs).drop linearPat.length
      let url := after.takeWhile (fun ch => !urlStop ch)
      if url.isEmpty then findLinearUrls fuel cs
      else String.mk (linearPat ++ url) :: findLinearUrls fuel (after.drop url.length)
    else findLinearUrls fuel cs

/-- Scan for matches of `https://[^.\s]+\.slack\.com/[^\s\)\]]+`. Because
`[^.\s]+` cannot contain a dot and must be followed by a literal dot, the
greedy match is deterministic. -/
def findSlackUrls : Nat → List Char → List String
  | 0, _ => []
  | _, [] => []
  | fuel + 1, c :: cs =>
    if httpsPat.isPrefixOf (c :: cs) then
      let afterScheme := (c :: cs).drop httpsPat.length
      let host := afterScheme.takeWhile (fun ch => !(ch = '.' || pySpace ch))
      let afterHost := afterScheme.drop host.length
      if host.isEmpty then findSlackUrls fuel cs
      else if slackPat.isPrefixOf afterHost then
        let afterMid := afterHost.drop slackPat.length
        let tailUrl := afterMid.takeWhile (fun ch => !urlStop ch)
        if tailUrl.isEmpty then findSlackUrls fuel cs
        else
          String.mk (httpsPat ++ host ++ slackPat ++ tailUrl) ::
            findSlackUrls fuel (afterMid.drop tailUrl.length)
      else findSlackUrls fuel cs
    else findSlackUrls fuel cs

/-- Extract `(type, url)` citation pairs from text: all Linear matches
first, then all Slack matches, as in the source. -/
def extract_citations (text : String) : List (String × String) :=
  (findLinearUrls text.toList.length text.toList).map (fun u => ("linear", u)) ++
    (findSlackUrls text.toList.length text.toList).map (fun u => ("slack", u))

/-- Python `str.title()` restricted to what the source applies it to
(`"linear"`/`"slack"`): uppercase a letter that follows a non-letter. -/
def titleCase (s : String) : String :=
  let step := fun (acc : List Char × Bool) (c : Char) =>
    let (out, prevAlpha) := acc
    if c.isAlpha then
      (out ++ [if prevAlpha then c.toLower else c.toUpper], true)
    else (out ++ [c], false)
  String.mk (s.toList.foldl step ([], false)).1

/-! ### The caller-facing stream: `app/agents/__init__.generate_response`

`generate_response` consumes the worker stream and yields
`(event_type, data)` pairs for the SSE bridge. The pydantic
`model_dump_json` payloads are embedded as structured values. -/

/-- An event yielded by `generate_response`. -/
inductive Ev where
  | text (s : String)
  | citation (ctype url title snippet : String)
  | thinking (s : String)
  | agentActivity (agent status task : String)
  | toolCall (tool : String) (params : ToolInput)
  | errorEv (message : String) (recoverable : Bool)
  | doneEv (inputTokens outputTokens : Nat) (agentsUsed : List String)

/-- The citation events emitted for one chunk of text. -/
def citationEvents (text : String) : List Ev :=
  (extract_citations text).map
    (fun p => Ev.citation p.1 p.2 (titleCase p.1 ++ " Reference") "")

/-- The `agent_activity(completed)` events emitted for the active agents. -/
def completedEvents (agents : List String) : List Ev :=
  agents.map (fun a => Ev.agentActivity a "completed" "")

/-- The mutable locals of one `generate_response` invocation. -/
structure GRState where
  agentsUsed : List String
  activeAgents : List String
  hasStreamedText : Bool
  insideToolCall : Bool
  doneEmitted : Bool

/-- Initial `generate_response` state. -/
def initGR : GRState := ⟨[], [], false, false, false⟩

/-- Process one content block of an `AssistantMessage`. -/
def processBlock (st : GRState) (b : Block) : GRState × List Ev :=
  match b with
  | .textB text =>
    let evs :=
      if !st.hasStreamedText && !st.insideToolCall then
        Ev.text text :: citationEvents text
      else []
    ({ st with hasStreamedText := false }, evs)
  | .toolUseB name input =>
    let st := { st with hasStreamedText := false, insideToolCall := true }
    if name = "Task" then
      let agentType := input.subagentType.getD "unknown"
      let used :=
        if st.agentsUsed.contains agentType then st.agentsUsed
        else st.agentsUsed ++ [agentType]
      ({ st with agentsUsed := used, activeAgents := st.activeAgents ++ [agentType] },
       [Ev.agentActivity agentType "running" (input.description.getD "")])
    else
      (st, [Ev.toolCall name input])
  | .toolResultB _ =>
    let evs := completedEvents st.activeAgents
    ({ st with activeAgents := [], insideToolCall := false, hasStreamedText := false },
     evs)

/-- Process the content blocks of an `AssistantMessage` in order. -/
def processBlocks (st : GRState) : List Block → GRState × List Ev
  | [] => (st, [])
  | b :: bs =>
    let r1 := processBlock st b
    let r2 := processBlocks r1.1 bs
    (r2.1, r1.2 ++ r2.2)

/-- Process one message from the worker stream. -/
def processMsg (st : GRState) (m : WMsg) : GRState × List Ev :=
  match m with
  | .assistantMsg content _ =>
    let evs0 := completedEvents st.activeAgents
    let st := { st with activeAgents := [], insideToolCall := false }
    let r := processBlocks st content
    (r.1, evs0 ++ r.2)
  | .streamEvent _ ev parent =>
    match ev, parent with
    | .contentBlockDelta d, none =>
      match d with
      | .textDelta t => ({ st with hasStreamedText := true }, Ev.text t :: citationEvents t)
      | .thinkingDelta t => (st, [Ev.thinking t])
      | .otherDelta => (st, [])
    | _, _ => (st, [])
  | .resultMsg usage =>
    let u := usage.getD ⟨0, 0⟩
    ({ st with doneEmitted := true },
     [Ev.doneEv u.input_tokens u.output_tokens st.agentsUsed])

/-- Process the worker stream messages in order. -/
def processMsgs (st : GRState) : List WMsg → GRState × List Ev
  | [] => (st, [])
  | m :: ms =>
    let r1 := processMsg st m
    let r2 := processMsgs r1.1 ms
    (r2.1, r1.2 ++ r2.2)

/-- An exception observed by `generate_response`, split by the two except
clauses (`ClaudeSDKError` vs generic `Exception`). -/
inductive GExc where
  | sdkErr (msg : String)
  | otherErr (msg : String)

/-- The error-event text for each except clause. -/
def gexcText : GExc → String
  | .sdkErr m => "Agent error: " ++ m
  | .otherErr m => "Unexpected error: " ++ m

/-- One invocation of `generate_response`, given the configuration flag,
the messages the worker stream yields, and the exception (if any) with
which the stream ends. Returns the yielded events and whether
`remove_session_client` was called. -/
def generate_response (anthropicConfigured : Bool) (msgs : List WMsg)
    (exc : Option GExc) : List Ev × Bool :=
  if !anthropicConfigured then
    ([Ev.errorEv "Anthropic API key not configured" false, Ev.doneEv 0 0 []], false)
  else
    let r := processMsgs initGR msgs
    match exc with
    | some e =>
      let evs := r.2 ++ [Ev.errorEv (gexcText e) false]
      ((if r.1.doneEmitted then evs else evs ++ [Ev.doneEv 0 0 r.1.agentsUsed]), true)
    | none =>
      ((if r.1.doneEmitted then r.2 else r.2 ++ [Ev.doneEv 0 0 r.1.agentsUsed]), false)

/-- Terminal-event predicates over yielded events. -/
def isDoneEv : Ev → Bool
  | .doneEv _ _ _ => true
  | _ => false

/-- Whether an event is an `error` event. -/
def isErrorEv : Ev → Bool
  | .errorEv _ _ => true
  | _ => false

/-- Whether an event is terminal (`done` or `error`). -/
def isTerminalEv (e : Ev) : Bool := isDoneEv e || isErrorEv e

/-- Whether a worker-stream message is a `ResultMessage`. -/
def isResultMsg : WMsg → Bool
  | .resultMsg _ => true
  | _ => false

/-- The termination shape asserted of every `generate_response` event
sequence: it ends in a terminal event, and any `done` event is the last
event yielded. -/
def ClaimedTermination (out : List Ev) : Prop :=
  (∃ e, out.getLast? = some e ∧ isTerminalEv e = true) ∧
  (∀ pre e post, out = pre ++ e :: post → isDoneEv e = true → post = [])

/-- A worker stream that yields nothing after its first `ResultMessage`
and does not fail after one. -/
def WellTerminatedStream (msgs : List WMsg) (exc : Option GExc) : Prop :=
  ∀ pre m post, msgs = pre ++ m :: post → isResultMsg m = true →
    post = [] ∧ exc = none

/-! ### The worker pool: `session_worker.get_or_create_worker` and friends

The pool's module-level maps `_workers` / `_worker_locks` become explicit
association lists. Worker objects are identified by numeric ids. Creation
(`_SessionWorker.start`, driving `_run` up to the readiness event) is
summarized by its three outcomes. -/

/-- The pool's shared state: the session-to-worker map and the per-session
creation-lock map. -/
structure Pool where
  workers : List (String × Nat)
  locks : List String

/-- Look up the worker for a session id. -/
def lookupWorker (p : Pool) (sid : String) : Option Nat :=
  (p.workers.find? (fun kv => kv.1 = sid)).map (fun kv => kv.2)

/-- Outcome of the sandbox-provisioning phase of `_SessionWorker._run`. -/
inductive Creation where
  | ok
  | sandboxFail
  | uploadFail
deriving DecidableEq, Repr

/-- The creation error `start` re-raises, if provisioning failed:
`create_sandbox` returning `None` or `upload_script` returning `False`
each raise a `RuntimeError` in `_run`, recorded as `_connect_error`. -/
def startError : Creation → Option String
  | .ok => none
  | .sandboxFail => some "Failed to create Daytona sandbox"
  | .uploadFail => some "Failed to upload sandbox runner script"

/-- Ensure a per-session lock exists (`_worker_locks[session_id] = Lock()`). -/
def addLock (p : Pool) (sid : String) : Pool :=
  if p.locks.contains sid then p else { p with locks := p.locks ++ [sid] }

/-- `get_or_create_worker`, sequentially: return the existing worker, or
construct one (identified by `fresh`), await its start, and insert it only
if provisioning succeeded. The creation outcome is the environment's input. -/
def get_or_create_worker (p : Pool) (sid : String) (c : Creation) (fresh : Nat) :
    Pool × Except String Nat :=
  match lookupWorker p sid with
  | some w => (p, .ok w)
  | none =>
    let p := addLock p sid
    match startError c with
    | some e => (p, .error e)
    | none => ({ p with workers := p.workers ++ [(sid, fresh)] }, .ok fresh)

/-- `remove_session_client`: pop the lock and the worker for a session. -/
def remove_session_client (p : Pool) (sid : String) : Pool :=
  { workers := p.workers.filter (fun kv => !(kv.1 = sid)),
    locks := p.locks.filter (fun k => !(k = sid)) }

/-- A sequence of `get_or_create_worker` calls for one session, each with
its own creation outcome, returning the final pool and each call's result. -/
def runCreateCalls (p : Pool) (sid : String) :
    List (Creation × Nat) → Pool × List (Except String Nat)
  | [] => (p, [])
  | cf :: cfs =>
    let r1 := get_or_create_worker p sid cf.1 cf.2
    let r2 := runCreateCalls r1.1 sid cfs
    (r2.1, r1.2 :: r2.2)

/-! ### One query execution: `_SessionWorker._execute_query`

The Daytona manager's `execute_streaming` is summarized by the lines it
delivers to the callbacks and the result dict it returns; building the
sandbox command and updating `_conversation_history` are modelled exactly. -/

/-- One `(role, content)` conversation turn. -/
structure Turn where
  role : String
  content : String

/-- The `app.config.settings` fields this subsystem reads. -/
structure Settings where
  anthropicConfigured : Bool
  anthropicApiKey : String
  anthropicModelOpus : String
  anthropicModelSonnet : String
  maxTurns : Int
  maxBudgetPerSessionUsd : Int
  slackTeamId : String
  slackConfigured : Bool
  slackBotToken : String
  linearConfigured : Bool
  linearApiKey : String
  githubConfigured : Bool
  githubToken : String

/-- One element of the sandbox command line. `CmdArg.json v` stands for
`json.dumps` of the embedded value at that argument position. -/
inductive CmdArg where
  | lit (s : String)
  | json (v : J)

/-- A conversation turn as the JSON object `json.dumps` serializes. -/
def turnJ (t : Turn) : J :=
  .jobj [("role", .jstr t.role), ("content", .jstr t.content)]

/-- A conversation history as a JSON array of turns. -/
def historyJ (h : List Turn) : J := .jarr (h.map turnJ)

/-- The `--config` JSON blob built in `_execute_query`. -/
def configJ (s : Settings) : J :=
  .jobj [("model_opus", .jstr s.anthropicModelOpus),
         ("model_sonnet", .jstr s.anthropicModelSonnet),
         ("max_turns", .jnum s.maxTurns),
         ("max_budget_usd", .jnum s.maxBudgetPerSessionUsd),
         ("slack_team_id", .jstr (if s.slackConfigured then s.slackTeamId else ""))]

/-- The full `cmd_args` list built in `_execute_query`; `historyArg` is the
value of `self._conversation_history[:-1]` at build time. -/
def buildCmdArgs (s : Settings) (message sid : String) (historyArg : List Turn) :
    List CmdArg :=
  [.lit "python", .lit "/tmp/sandbox_runner.py",
   .lit "--message", .lit message,
   .lit "--session-id", .lit sid,
   .lit "--anthropic-api-key", .lit s.anthropicApiKey,
   .lit "--config", .json (configJ s),
   .lit "--history", .json (historyJ historyArg)] ++
  (if s.slackConfigured then [.lit "--slack-token", .lit s.slackBotToken] else []) ++
  (if s.linearConfigured then [.lit "--linear-api-key", .lit s.linearApiKey] else []) ++
  (if s.githubConfigured then [.lit "--github-token", .lit s.githubToken] else [])

/-- The result dict of `execute_streaming`, together with the stdout and
stderr lines it delivered to the callbacks while running. -/
structure ExecResult where
  stdoutLines : List RawLine
  stderrLines : List String
  exitCode : Int
  timedOut : Bool
  error : Option String

/-- Python truthiness of `result["error"]`. -/
def errTruthy : Option String → Bool
  | none => false
  | some s => !(s = "")

/-- The stderr text interpolated into the exit-code error message. -/
def stderrMsg (ls : List String) : String :=
  if ls.isEmpty then "No stderr output" else String.intercalate "\n" ls

/-- The outcome of one `_execute_query` call. -/
structure QueryOutcome where
  cmd : List CmdArg
  items : List QItem
  proxies : List JObj
  result : Except Exc Unit
  newHistory : List Turn

/-- `_SessionWorker._execute_query`: append the user turn, build the
command with the prior history, process the streamed stdout lines, raise
on a truthy error or a non-zero exit code, and append the accumulated
assistant turn on success. -/
def execute_query (s : Settings) (hist : List Turn) (message sid : String)
    (res : ExecResult) : QueryOutcome :=
  let hist1 := hist ++ [⟨"user", message⟩]
  let cmd := buildCmdArgs s message sid hist1.dropLast
  let r := processLines s.anthropicModelOpus sid [] res.stdoutLines
  let chunks := r.1
  if errTruthy res.error then
    ⟨cmd, r.2.1, r.2.2,
     .error (.runtimeError ("Sandbox execution failed: " ++ res.error.getD "")), hist1⟩
  else if res.exitCode ≠ 0 then
    ⟨cmd, r.2.1, r.2.2,
     .error (.runtimeError ("Sandbox script exited with code " ++ toString res.exitCode
       ++ ". Stderr: " ++ stderrMsg res.stderrLines)), hist1⟩
  else
    ⟨cmd, r.2.1, r.2.2, .ok (),
     if chunks.isEmpty then hist1
     else hist1 ++ [⟨"assistant", String.join chunks⟩]⟩

/-- The `text_delta` payloads among a line sequence, in order: exactly the
strings `_execute_query` accumulates in `assistant_response_chunks`. -/
def textDeltaPayloads (lines : List RawLine) : List String :=
  lines.filterMap (fun l =>
    match l with
    | .jsonObj o =>
      match o.type? with
      | some "text_delta" => o.text?
      | _ => none
    | _ => none)

/-! ### Queue-to-stream and the full query pipeline (for eviction) -/

/-- What `query_and_stream` yields from the enqueued items: messages up to
the first exception item, which it re-raises. -/
def streamOfItems : List QItem → List WMsg × Option Exc
  | [] => ([], none)
  | .msgItem m :: rest =>
    let r := streamOfItems rest
    (m :: r.1, r.2)
  | .excItem e :: _ => ([], some e)

/-- Python `str()` of the modelled exceptions (as interpolated into the
caller-facing error event). -/
def excText : Exc → String
  | .runtimeError m => m
  | .keyError k => (Char.ofNat 39).toString ++ k ++ (Char.ofNat 39).toString
  | .attributeError ty attr =>
      (Char.ofNat 39).toString ++ ty ++ (Char.ofNat 39).toString ++
      " object has no attribute " ++
      (Char.ofNat 39).toString ++ attr ++ (Char.ofNat 39).toString

/-- The modelled exceptions are plain `Exception`s, not `ClaudeSDKError`s. -/
def toGExc (e : Exc) : GExc := .otherErr (excText e)

/-- The exception `generate_response` observes for one query: the first
exception item in the stream, else the exception `_execute_query` raised. -/
def observedExc (items : List QItem) (qres : Except Exc Unit) : Option GExc :=
  match (streamOfItems items).2 with
  | some e => some (toGExc e)
  | none =>
    match qres with
    | .error e => some (toGExc e)
    | .ok _ => none

/-- One query driven end to end: `_execute_query` inside the worker,
`query_and_stream` relaying the queue, `generate_response` consuming it and
evicting the session's worker from the pool on failure. -/
def runQuery (s : Settings) (p : Pool) (hist : List Turn) (sid message : String)
    (res : ExecResult) : List Ev × Pool × List Turn :=
  let q := execute_query s hist message sid res
  let exc := observedExc q.items q.result
  let gr := generate_response s.anthropicConfigured (streamOfItems q.items).1 exc
  (gr.1, (if gr.2 then remove_session_client p sid else p), q.newHistory)

/-! ### Streaming execution: `daytona_manager.DaytonaSandboxManager.execute_streaming`

The Daytona SDK calls are oracles: each awaited operation either returns a
value or raises (a timeout error or another exception), and carries the
wall-clock duration the await took. `execute_streaming` itself passes
`timeout` only to `execute_session_command`; the log-streaming wait and the
`exec()` fallback are awaited with no local bound. -/

/-- Outcome of one awaited SDK operation: value, `asyncio.TimeoutError`,
or another exception — each with the duration of the await. -/
inductive SdkCall (A : Type) where
  | ok (dur : Nat) (v : A)
  | raiseTimeout (dur : Nat)
  | raiseErr (dur : Nat) (msg : String)

/-- The environment of one `execute_streaming` call. `startCmd` yields the
optional `cmd_id` (`None` when the attribute is missing); `cmdInfo` yields
the optional `exit_code` attribute; `execFallback` yields the exit code of
the synchronous `exec()`. -/
structure StreamEnv where
  sandboxExists : Bool
  sessionCreated : Bool
  startCmd : SdkCall (Option String)
  logs : SdkCall Unit
  cmdInfo : SdkCall (Option Int)
  execFallback : SdkCall Int

/-- The dict `execute_streaming` returns, plus the total time the call
consumed before returning. -/
structure StreamResult where
  exitCode : Int
  timedOut : Bool
  error : Option String
  elapsed : Nat

/-- The `exec()` fallback path (lines after the session-based attempt),
still inside the outer `try` whose handlers translate
`asyncio.TimeoutError` to a timed-out result and any other exception to an
error result. `t0` is time already spent in the session-based attempt. -/
def execFallbackPath (env : StreamEnv) (timeout : Nat) (t0 : Nat) : StreamResult :=
  match env.execFallback with
  | .ok d ec => ⟨ec, false, none, t0 + d⟩
  | .raiseTimeout d =>
      ⟨-1, true, some ("Timeout after " ++ toString timeout ++ "s"), t0 + d⟩
  | .raiseErr d msg => ⟨-1, false, some msg, t0 + d⟩

/-- `execute_streaming`: try session-based streaming first. Any exception
raised inside that attempt — including `asyncio.TimeoutError`, a subclass
of `Exception` — is caught by the inner `except Exception` and falls
through to the `exec()` fallback. A missing `cmd_id` also falls through.
Exceptions from `get_session_command` are absorbed with exit code 0. -/
def execute_streaming (env : StreamEnv) (timeout : Nat) : StreamResult :=
  if !env.sandboxExists then ⟨-1, false, some "Sandbox not found", 0⟩
  else if env.sessionCreated then
    match env.startCmd with
    | .ok d (some _) =>
      match env.logs with
      | .ok d2 _ =>
        match env.cmdInfo with
        | .ok d3 (some ec) => ⟨ec, false, none, d + d2 + d3⟩
        | .ok d3 none => ⟨0, false, none, d + d2 + d3⟩
        | .raiseTimeout d3 => ⟨0, false, none, d + d2 + d3⟩
        | .raiseErr d3 _ => ⟨0, false, none, d + d2 + d3⟩
      | .raiseTimeout d2 => execFallbackPath env timeout (d + d2)
      | .raiseErr d2 _ => execFallbackPath env timeout (d + d2)
    | .ok d none => execFallbackPath env timeout d
    | .raiseTimeout d => execFallbackPath env timeout d
    | .raiseErr d _ => execFallbackPath env timeout d
  else execFallbackPath env timeout 0

/-- Whether control reaches the `exec()` fallback. -/
def reachesFallback (env : StreamEnv) : Bool :=
  env.sandboxExists &&
  (if env.sessionCreated then
    match env.startCmd with
    | .ok _ (some _) =>
      match env.logs with
      | .ok _ _ => false
      | _ => true
    | _ => true
  else true)

/-- Whether an SDK call raises `asyncio.TimeoutError`. -/
def isTimeoutCall {A : Type} : SdkCall A → Bool
  | .raiseTimeout _ => true
  | _ => false

/-! ### The sandbox-side proxy call: `sandbox_runner._slack_proxy_call`

Time is measured in tenths of a second: the poll interval `0.3` becomes 3
ticks and a timeout of `t` seconds becomes `10 * t` ticks. The environment
says, for each elapsed tick, whether the response file exists and what it
parses to (`none` inside means a partial write: parse fails and the loop
retries). -/

/-- The response-file path the sandbox-side tool polls, as derived in
`_slack_proxy_call`. -/
def sandboxSlackRespPath (reqId : String) : String :=
  "/tmp/slack_resp_" ++ reqId ++ ".json"

/-- The proxy request line `_slack_proxy_call` prints to stdout. -/
def slackProxyRequestJ (reqId method : String) (params : J) : J :=
  .jobj [("type", .jstr "slack_proxy"), ("id", .jstr reqId),
         ("method", .jstr method), ("params", params)]

/-- The structured timeout result returned when polling gives up. -/
def proxyTimeoutJ : J :=
  .jobj [("ok", .jbool false), ("error", .jstr "proxy_timeout"),
         ("detail", .jstr "Backend did not respond in time")]

/-- The response-file oracle: at elapsed tick `t`, `none` means the file
does not exist; `some none` means it exists but fails to parse;
`some (some v)` means it parses to `v`. -/
def FileOracle : Type := Nat → Option (Option J)

/-- The polling loop of `_slack_proxy_call`: while elapsed time is below
the timeout, check for the file, return its contents on a successful
parse, and otherwise sleep one interval. Returns the result and the number
of existence checks performed. Fuel is initialized so it never runs out. -/
def pollLoop (file : FileOracle) (timeoutTicks : Nat) : Nat → Nat → J × Nat
  | _, 0 => (proxyTimeoutJ, 0)
  | elapsed, fuel + 1 =>
    if elapsed < timeoutTicks then
      match file elapsed with
      | some (some v) => (v, 1)
      | some none =>
        let r := pollLoop file timeoutTicks (elapsed + 3) fuel
        (r.1, r.2 + 1)
      | none =>
        let r := pollLoop file timeoutTicks (elapsed + 3) fuel
        (r.1, r.2 + 1)
    else (proxyTimeoutJ, 0)

/-- `_slack_proxy_call`, polling phase: timeout in seconds, starting at
elapsed time 0. -/
def slack_proxy_poll (file : FileOracle) (timeoutSec : Nat) : J × Nat :=
  pollLoop file (10 * timeoutSec) 0 (10 * timeoutSec + 1)

/-! ### The backend side of the bridge: `session_worker._handle_slack_proxy` -/

/-- The response-file path the backend writes, as derived in
`_handle_slack_proxy` and passed to `sandbox_manager.write_file`. -/
def backendSlackRespPath (reqId : String) : String :=
  "/tmp/slack_resp_" ++ reqId ++ ".json"

/-- The short-circuit response written when Slack is not configured. -/
def slackNotConfiguredJ : J :=
  .jobj [("ok", .jbool false), ("error", .jstr "slack_not_configured")]

/-- The methods of the fixed dispatch table. -/
def slackMethods : List String :=
  ["conversations.list", "conversations.history", "search.messages", "chat.postMessage"]

/-- The result of one `_handle_slack_proxy` call: the Slack API methods it
actually called over HTTP, and the single file write it performed. -/
structure HandleResult where
  httpCalls : List String
  writePath : String
  writeContent : J

/-- `_handle_slack_proxy`: short-circuit without any HTTP call when Slack
is not configured; otherwise dispatch the method against the fixed table
(the HTTP response, or the transport error, is the oracle `http`) and
write the resulting JSON back into the sandbox. -/
def handle_slack_proxy (slackConfigured : Bool) (http : String → Except String J)
    (req : JObj) : HandleResult :=
  let reqId := req.id?.getD ""
  let method := req.method?.getD ""
  if !slackConfigured then
    ⟨[], backendSlackRespPath reqId, slackNotConfiguredJ⟩
  else if slackMethods.contains method then
    match http method with
    | .ok data => ⟨[method], backendSlackRespPath reqId, data⟩
    | .error e =>
        ⟨[method], backendSlackRespPath reqId,
         .jobj [("ok", .jbool false), ("error", .jstr e)]⟩
  else
    ⟨[], backendSlackRespPath reqId,
     .jobj [("ok", .jbool false), ("error", .jstr ("unknown_method: " ++ method))]⟩

/-! ### The sandbox runner entry point: `sandbox_runner.main`

`argparse` and `json.loads` are summarized by the parse outcomes of the
`--config` and `--history` values; the control flow of `main` after them is
modelled exactly. -/

/-- A JSON event as printed by `sandbox_runner.emit_event`
(`{"type": t, **data}`). -/
def emitErrorJ (message : String) (recoverable : Bool) : J :=
  .jobj [("type", .jstr "error"), ("message", .jstr message),
         ("recoverable", .jbool recoverable)]

/-- `emit_done()` with default arguments. -/
def emitDoneDefaultJ : J :=
  .jobj [("type", .jstr "done"),
         ("tokens_used", .jobj [("input", .jnum 0), ("output", .jnum 0)]),
         ("agents_used", .jarr [])]

/-- What `main` does after parsing arguments: exit early with emitted
events, or run the agent with a config and a history value. -/
inductive MainOutcome where
  | exitEarly (events : List J) (code : Nat)
  | runsAgent (config : J) (history : J)

/-- `sandbox_runner.main` after `argparse`: an unparseable `--config` is
fatal (error event, done event, exit 1, no agent run); an unparseable
`--history` is logged and replaced by the empty list. -/
def sandboxMain (configParse : Option J) (historyParse : Option J) : MainOutcome :=
  match configParse with
  | none => .exitEarly [emitErrorJ "Invalid configuration JSON" false, emitDoneDefaultJ] 1
  | some cfg =>
    .runsAgent cfg
      (match historyParse with
       | none => .jarr []
       | some h => h)

/-! ### Concurrent `get_or_create_worker`: an interleaving model

For one brand-new session id and `n` concurrent callers, the shared state
is the pool entry for that id, the per-session `asyncio.Lock`, and each
caller's position in `get_or_create_worker`. Code between awaits is
atomic (cooperative scheduling); the await points are lock acquisition and
`worker.start()`. Creation is assumed to succeed (the race-freedom claim
is about the success path). -/

/-- A caller's position in `get_or_create_worker`:
`entry` — about to run the fast-path membership check;
`waiting` — suspended in `lock.acquire()`;
`creating w` — constructed worker `w`, awaiting `worker.start()`;
`finished w` — returned worker `w`. -/
inductive CallerPC where
  | entry
  | waiting
  | creating (w : Nat)
  | finished (w : Nat)
deriving DecidableEq, Repr

/-- The shared state for one session id with `n` concurrent callers.
`constructed` counts `_SessionWorker(...)` constructor runs; `provisioned`
counts sandboxes successfully provisioned; `nextId` generates worker
identities. -/
structure RaceState (n : Nat) where
  worker : Option Nat
  lockOwner : Option (Fin n)
  pcs : Fin n → CallerPC
  constructed : Nat
  provisioned : Nat
  nextId : Nat

/-- The initial state: no worker, lock free, all callers at entry. -/
def raceInit (n : Nat) : RaceState n :=
  ⟨none, none, fun _ => .entry, 0, 0, 0⟩

/-- Whether a caller is between worker construction and start completion. -/
def isCreatingPC : CallerPC → Bool
  | .creating _ => true
  | _ => false

/-- One interleaving step. From `entry`, the membership check, lock-map
update and (non-suspending) acquire of a free lock run atomically through
the double-check and the constructor; acquiring a held lock suspends.
From `waiting`, the caller resumes when the lock is free and runs the same
double-check atomically. `finishStart` is `worker.start()` returning
successfully: the sandbox is provisioned, the worker is inserted into the
pool, and the lock is released. -/
inductive RaceStep {n : Nat} : RaceState n → RaceState n → Prop where
  | entryFound (s : RaceState n) (i : Fin n) (w : Nat)
      (hpc : s.pcs i = .entry) (hw : s.worker = some w) :
      RaceStep s { s with pcs := Function.update s.pcs i (.finished w) }
  | entryWait (s : RaceState n) (i j : Fin n)
      (hpc : s.pcs i = .entry) (hw : s.worker = none) (hl : s.lockOwner = some j) :
      RaceStep s { s with pcs := Function.update s.pcs i .waiting }
  | entryConstruct (s : RaceState n) (i : Fin n)
      (hpc : s.pcs i = .entry) (hw : s.worker = none) (hl : s.lockOwner = none) :
      RaceStep s { s with pcs := Function.update s.pcs i (.creating s.nextId),
                          lockOwner := some i,
                          constructed := s.constructed + 1,
                          nextId := s.nextId + 1 }
  | wakeFound (s : RaceState n) (i : Fin n) (w : Nat)
      (hpc : s.pcs i = .waiting) (hl : s.lockOwner = none) (hw : s.worker = some w) :
      RaceStep s { s with pcs := Function.update s.pcs i (.finished w) }
  | wakeConstruct (s : RaceState n) (i : Fin n)
      (hpc : s.pcs i = .waiting) (hl : s.lockOwner = none) (hw : s.worker = none) :
      RaceStep s { s with pcs := Function.update s.pcs i (.creating s.nextId),
                          lockOwner := some i,
                          constructed := s.constructed + 1,
                          nextId := s.nextId + 1 }
  | finishStart (s : RaceState n) (i : Fin n) (w : Nat)
      (hpc : s.pcs i = .creating w) :
      RaceStep s { s with pcs := Function.update s.pcs i (.finished w),
                          worker := some w,
                          provisioned := s.provisioned + 1,
                          lockOwner := none }

/-- Reachability under interleaved steps. -/
def RaceReachable {n : Nat} (s : RaceState n) : Prop :=
  Relation.ReflTransGen RaceStep (raceInit n) s

/-- The inductive invariant of the creation race. -/
structure RaceInv {n : Nat} (s : RaceState n) : Prop where
  creating_owner : ∀ i, isCreatingPC (s.pcs i) = true → s.lockOwner = some i
  creating_noworker : ∀ i, isCreatingPC (s.pcs i) = true → s.worker = none
  noworker_noprov : s.worker = none → s.provisioned = 0
  idle_nocon : s.worker = none → (∀ i, isCreatingPC (s.pcs i) = false) →
    s.constructed = 0
  worker_con : ∀ w, s.worker = some w → s.constructed = 1
  creating_con : ∀ i, isCreatingPC (s.pcs i) = true → s.constructed = 1
  worker_prov : ∀ w, s.worker = some w → s.provisioned = 1
  finished_worker : ∀ i w, s.pcs i = .finished w → s.worker = some w

/-! ## Theorems -/

/-! ### Line translation (C2) -/

/-- `on_stdout` only ever appends to the chunk accumulator; the enqueued
items and spawned proxy requests do not depend on it. -/
theorem on_stdout_char (mo sid : String) (cs : List String) (l : RawLine) :
    on_stdout mo sid cs l =
      (cs ++ (on_stdout mo sid [] l).1, (on_stdout mo sid [] l).2) := by
  cases l with
  | notJson r => simp [on_stdout]
  | jsonNonObj v => simp [on_stdout]
  | jsonObj o =>
    simp only [on_stdout]
    repeat' split
    all_goals simp_all

/-- The chunk strings one line appends are its `text_delta` payloads. -/
theorem on_stdout_chunks_eq (mo sid : String) (l : RawLine) :
    (on_stdout mo sid [] l).1 = textDeltaPayloads [l] := by
  cases l with
  | notJson r => simp [on_stdout, textDeltaPayloads]
  | jsonNonObj v => simp [on_stdout, textDeltaPayloads]
  | jsonObj o =>
    simp only [on_stdout, textDeltaPayloads]
    repeat' split
    all_goals simp_all [List.filterMap]

/-- Processing a line sequence enqueues exactly the per-line translations,
concatenated in arrival order, independently of the accumulator state. -/
theorem processLines_items_eq (mo sid : String) (cs : List String)
    (lines : List RawLine) :
    (processLines mo sid cs lines).2.1 = lines.flatMap (visibleItems mo sid) := by
  induction lines generalizing cs with
  | nil => simp [processLines]
  | cons l ls ih =>
    simp only [processLines, List.flatMap_cons]
    rw [on_stdout_char]
    simp only [visibleItems]
    rw [ih]

/-- The final chunk accumulator is the initial one extended by all
`text_delta` payloads in order. -/
theorem processLines_chunks_eq (mo sid : String) (cs : List String)
    (lines : List RawLine) :
    (processLines mo sid cs lines).1 = cs ++ textDeltaPayloads lines := by
  induction lines generalizing cs with
  | nil => simp [processLines, textDeltaPayloads]
  | cons l ls ih =>
    simp only [processLines]
    rw [on_stdout_char, ih, on_stdout_chunks_eq]
    have h2 : textDeltaPayloads (l :: ls) = textDeltaPayloads [l] ++ textDeltaPayloads ls := by
      simp only [textDeltaPayloads]
      rw [show l :: ls = [l] ++ ls from rfl, List.filterMap_append]
    rw [h2, List.append_assoc]

/-- C2 counterexample: the claim says a line that is not a JSON object
with a recognized non-proxy type contributes no caller-visible message,
but a line decoding to the non-object JSON value `5` enqueues the
`AttributeError` raised by `event.get("type")` — a caller-visible item. -/
theorem c2_translation_counterexample :
    ¬ (∀ l : RawLine, isRecognizedNonProxyLine l = false →
        visibleItems "claude-opus-4" "s1" l = []) := by
  intro h
  have h5 := h (RawLine.jsonNonObj (J.jnum 5)) rfl
  simp [visibleItems, on_stdout] at h5

/-- C2 amended: within one query, the items enqueued on the caller's
output queue are exactly the per-line translations in arrival order,
independent of accumulator state (so no line aborts processing of later
lines); undecodable lines, object lines with an unrecognized type, and
`slack_proxy` lines contribute nothing; but a line decoding to a
non-object JSON value enqueues the resulting `AttributeError` as a
caller-visible item. -/
theorem c2_translation_amended (mo sid : String) :
    (∀ chunks lines, (processLines mo sid chunks lines).2.1 =
        lines.flatMap (visibleItems mo sid)) ∧
    (∀ raw, visibleItems mo sid (.notJson raw) = []) ∧
    (∀ o : JObj, recognizedTypes.contains (o.type?.getD "") = false →
        visibleItems mo sid (.jsonObj o) = []) ∧
    (∀ o : JObj, o.type? = some "slack_proxy" →
        visibleItems mo sid (.jsonObj o) = []) ∧
    (∀ v : J, visibleItems mo sid (.jsonNonObj v) =
        [QItem.excItem (.attributeError (pyTypeName v) "get")]) := by
  refine ⟨processLines_items_eq mo sid, fun raw => rfl, ?_, ?_, fun v => rfl⟩
  · intro o hco
    rcases o with ⟨ty, tx, ag, tk, tl, ps, m, tu, idf, mth⟩
    cases ty with
    | none => rfl
    | some t =>
      simp only [Option.getD, recognizedTypes] at hco
      simp only [visibleItems, on_stdout]
      repeat' split
      all_goals simp_all [recognizedTypes]
  · intro o hp
    rcases o with ⟨ty, tx, ag, tk, tl, ps, m, tu, idf, mth⟩
    simp only at hp
    subst hp
    rfl

/-! ### Terminal-event structure of `generate_response` (C1) -/

/-- Citation events are never terminal. -/
theorem citationEvents_no_terminal (t : String) :
    (citationEvents t).countP isDoneEv = 0 ∧ (citationEvents t).countP isErrorEv = 0 := by
  constructor <;>
  · rw [List.countP_eq_zero]
    intro a ha
    simp only [citationEvents, List.mem_map] at ha
    obtain ⟨p, -, rfl⟩ := ha
    simp [isDoneEv, isErrorEv]

/-- Completion events are never terminal. -/
theorem completedEvents_no_terminal (agents : List String) :
    (completedEvents agents).countP isDoneEv = 0 ∧
    (completedEvents agents).countP isErrorEv = 0 := by
  constructor <;>
  · rw [List.countP_eq_zero]
    intro a ha
    simp only [completedEvents, List.mem_map] at ha
    obtain ⟨p, -, rfl⟩ := ha
    simp [isDoneEv, isErrorEv]

/-- A content block yields no terminal event and leaves `done_emitted`
untouched. -/
theorem processBlock_no_terminal (st : GRState) (b : Block) :
    (processBlock st b).2.countP isDoneEv = 0 ∧
    (processBlock st b).2.countP isErrorEv = 0 ∧
    (processBlock st b).1.doneEmitted = st.doneEmitted := by
  cases b with
  | textB t =>
    obtain ⟨c1, c2⟩ := citationEvents_no_terminal t
    refine ⟨?_, ?_, rfl⟩
    · simp only [processBlock]
      split <;> simp [List.countP_cons, isDoneEv, c1]
    · simp only [processBlock]
      split <;> simp [List.countP_cons, isErrorEv, c2]
  | toolUseB name input =>
    simp only [processBlock]
    split <;> simp [isDoneEv, isErrorEv, List.countP_cons]
  | toolResultB c =>
    obtain ⟨c1, c2⟩ := completedEvents_no_terminal st.activeAgents
    exact ⟨c1, c2, rfl⟩

/-- A block list yields no terminal event and leaves `done_emitted`
untouched. -/
theorem processBlocks_no_terminal (st : GRState) (bs : List Block) :
    (processBlocks st bs).2.countP isDoneEv = 0 ∧
    (processBlocks st bs).2.countP isErrorEv = 0 ∧
    (processBlocks st bs).1.doneEmitted = st.doneEmitted := by
  induction bs generalizing st with
  | nil => exact ⟨rfl, rfl, rfl⟩
  | cons b bs ih =>
    obtain ⟨h1, h2, h3⟩ := processBlock_no_terminal st b
    obtain ⟨g1, g2, g3⟩ := ih (processBlock st b).1
    simp only [processBlocks]
    exact ⟨by simp [List.countP_append, h1, g1],
           by simp [List.countP_append, h2, g2], by rw [g3, h3]⟩

/-- A non-`ResultMessage` stream message yields no terminal event and
leaves `done_emitted` untouched. -/
theorem processMsg_no_terminal (st : GRState) (m : WMsg)
    (hm : isResultMsg m = false) :
    (processMsg st m).2.countP isDoneEv = 0 ∧
    (processMsg st m).2.countP isErrorEv = 0 ∧
    (processMsg st m).1.doneEmitted = st.doneEmitted := by
  cases m with
  | assistantMsg content model =>
    obtain ⟨c1, c2⟩ := completedEvents_no_terminal st.activeAgents
    obtain ⟨h1, h2, h3⟩ := processBlocks_no_terminal
      { st with activeAgents := [], insideToolCall := false } content
    simp only [processMsg]
    exact ⟨by simp [List.countP_append, c1, h1],
           by simp [List.countP_append, c2, h2], h3⟩
  | streamEvent sid ev parent =>
    cases ev with
    | contentBlockDelta d =>
      cases parent with
      | none =>
        cases d with
        | textDelta t =>
          obtain ⟨c1, c2⟩ := citationEvents_no_terminal t
          exact ⟨by simp [processMsg, List.countP_cons, isDoneEv, c1],
                 by simp [processMsg, List.countP_cons, isErrorEv, c2], rfl⟩
        | thinkingDelta t =>
          exact ⟨by simp [processMsg, List.countP_cons, isDoneEv],
                 by simp [processMsg, List.countP_cons, isErrorEv], rfl⟩
        | otherDelta => exact ⟨rfl, rfl, rfl⟩
      | some pid => exact ⟨rfl, rfl, rfl⟩
    | otherEvent => cases parent <;> exact ⟨rfl, rfl, rfl⟩
  | resultMsg u => simp [isResultMsg] at hm

/-- A result-free message list yields no terminal event and leaves
`done_emitted` untouched. -/
theorem processMsgs_no_terminal (st : GRState) (ms : List WMsg)
    (hms : ∀ m ∈ ms, isResultMsg m = false) :
    (processMsgs st ms).2.countP isDoneEv = 0 ∧
    (processMsgs st ms).2.countP isErrorEv = 0 ∧
    (processMsgs st ms).1.doneEmitted = st.doneEmitted := by
  induction ms generalizing st with
  | nil => exact ⟨rfl, rfl, rfl⟩
  | cons m ms ih =>
    obtain ⟨h1, h2, h3⟩ := processMsg_no_terminal st m (hms m (by simp))
    obtain ⟨g1, g2, g3⟩ := ih (processMsg st m).1 (fun x hx => hms x (by simp [hx]))
    simp only [processMsgs]
    exact ⟨by simp [List.countP_append, h1, g1],
           by simp [List.countP_append, h2, g2], by rw [g3, h3]⟩

/-- `processMsgs` distributes over list append. -/
theorem processMsgs_append (st : GRState) (ms1 ms2 : List WMsg) :
    processMsgs st (ms1 ++ ms2) =
      ((processMsgs (processMsgs st ms1).1 ms2).1,
       (processMsgs st ms1).2 ++ (processMsgs (processMsgs st ms1).1 ms2).2) := by
  induction ms1 generalizing st with
  | nil => simp [processMsgs]
  | cons m ms ih => simp [processMsgs, ih]

/-- A well-terminated stream is result-free, or ends in its only
`ResultMessage` with no trailing exception. -/
theorem wellTerminated_cases (msgs : List WMsg) (exc : Option GExc)
    (h : WellTerminatedStream msgs exc) :
    (∀ m ∈ msgs, isResultMsg m = false) ∨
    (∃ pre u, msgs = pre ++ [WMsg.resultMsg u] ∧
      (∀ m ∈ pre, isResultMsg m = false) ∧ exc = none) := by
  rcases List.eq_nil_or_concat msgs with hnil | ⟨l, a, hla⟩
  · subst hnil; left; simp
  · rw [List.concat_eq_append] at hla
    subst hla
    by_cases ha : isResultMsg a = true
    · right
      cases a with
      | assistantMsg c mo => simp [isResultMsg] at ha
      | streamEvent s e p => simp [isResultMsg] at ha
      | resultMsg u =>
        refine ⟨l, u, rfl, ?_, (h l (WMsg.resultMsg u) [] rfl rfl).2⟩
        intro m hm
        by_contra hmr
        rw [Bool.not_eq_false] at hmr
        obtain ⟨s1, s2, rfl⟩ := List.append_of_mem hm
        have hpost := (h s1 m (s2 ++ [WMsg.resultMsg u]) (by simp) hmr).1
        simp at hpost
    · left
      intro m hm
      rcases List.mem_append.mp hm with hml | hma
      · by_contra hmr
        rw [Bool.not_eq_false] at hmr
        obtain ⟨s1, s2, rfl⟩ := List.append_of_mem hml
        have hpost := (h s1 m (s2 ++ [a]) (by simp) hmr).1
        simp at hpost
      · rw [List.mem_singleton.mp hma]
        exact Bool.not_eq_true _ ▸ (Bool.eq_false_iff.mpr ha)

/-- C1 counterexample: on the worker stream that yields a `ResultMessage`
followed by a further text delta — producible by a sandbox program that
prints a `done` line and then a `text_delta` line — `generate_response`
yields the `done` event and then a `text` event, so the sequence does not
end in a terminal event and the `done` is not last. -/
theorem c1_terminal_counterexample :
    ¬ ClaimedTermination (generate_response true
        [WMsg.resultMsg none,
         WMsg.streamEvent "s1" (SEvent.contentBlockDelta (Delta.textDelta "hi")) none]
        none).1 := by
  intro hc
  obtain ⟨⟨e, he, ht⟩, -⟩ := hc
  have hout : (generate_response true
      [WMsg.resultMsg none,
       WMsg.streamEvent "s1" (SEvent.contentBlockDelta (Delta.textDelta "hi")) none]
      none).1 = [Ev.doneEv 0 0 [], Ev.text "hi"] := rfl
  rw [hout] at he
  rw [show [Ev.doneEv 0 0 [], Ev.text "hi"] = [Ev.doneEv 0 0 []] ++ [Ev.text "hi"] from rfl,
      List.getLast?_concat] at he
  injection he with he
  rw [← he] at ht
  simp [isTerminalEv, isDoneEv, isErrorEv] at ht

/-- C1 amended: provided the worker stream yields no message and no
exception after its first `ResultMessage`, every `generate_response`
invocation yields exactly one `done` event, the last event yielded is a
`done`, at most one `error` event precedes it, and when the stream
contains no `ResultMessage` and no exception the terminal `done` is the
synthetic one appended after the stream ends. -/
theorem c1_terminal_amended (cfg : Bool) (msgs : List WMsg) (exc : Option GExc)
    (h : WellTerminatedStream msgs exc) :
    (generate_response cfg msgs exc).1.countP isDoneEv = 1 ∧
    (∃ u v a, (generate_response cfg msgs exc).1.getLast? = some (Ev.doneEv u v a)) ∧
    (generate_response cfg msgs exc).1.countP isErrorEv ≤ 1 ∧
    (cfg = true → (∀ m ∈ msgs, isResultMsg m = false) → exc = none →
      (generate_response cfg msgs exc).1 =
        (processMsgs initGR msgs).2 ++
          [Ev.doneEv 0 0 (processMsgs initGR msgs).1.agentsUsed]) := by
  cases cfg with
  | false =>
    exact ⟨rfl, ⟨0, 0, [], rfl⟩, le_of_eq rfl, fun hc => nomatch hc⟩
  | true =>
    rcases wellTerminated_cases msgs exc h with hfree | ⟨pre, u, rfl, hpre, rfl⟩
    · obtain ⟨d0, e0, dE⟩ := processMsgs_no_terminal initGR msgs hfree
      have dE' : (processMsgs initGR msgs).1.doneEmitted = false := dE
      cases exc with
      | none =>
        have hout : (generate_response true msgs none).1 =
            (processMsgs initGR msgs).2 ++
              [Ev.doneEv 0 0 (processMsgs initGR msgs).1.agentsUsed] := by
          simp [generate_response, dE']
        refine ⟨?_, ⟨0, 0, (processMsgs initGR msgs).1.agentsUsed, ?_⟩, ?_,
          fun _ _ _ => hout⟩
        · rw [hout, List.countP_append, d0]
          rfl
        · rw [hout, List.getLast?_concat]
        · rw [hout, List.countP_append, e0]
          simp [List.countP_cons, isErrorEv]
      | some e =>
        have hout : (generate_response true msgs (some e)).1 =
            ((processMsgs initGR msgs).2 ++ [Ev.errorEv (gexcText e) false]) ++
              [Ev.doneEv 0 0 (processMsgs initGR msgs).1.agentsUsed] := by
          simp [generate_response, dE']
        refine ⟨?_, ⟨0, 0, (processMsgs initGR msgs).1.agentsUsed, ?_⟩, ?_,
          fun _ _ hne => nomatch hne⟩
        · rw [hout, List.countP_append, List.countP_append, d0]
          rfl
        · rw [hout, List.getLast?_concat]
        · rw [hout, List.countP_append, List.countP_append, e0]
          simp [List.countP_cons, isErrorEv, isDoneEv]
    · obtain ⟨d0, e0, dE⟩ := processMsgs_no_terminal initGR pre hpre
      have htail : processMsgs (processMsgs initGR pre).1 [WMsg.resultMsg u] =
          ({ (processMsgs initGR pre).1 with doneEmitted := true },
           [Ev.doneEv (u.getD ⟨0, 0⟩).input_tokens (u.getD ⟨0, 0⟩).output_tokens
              (processMsgs initGR pre).1.agentsUsed]) := by
        simp [processMsgs, processMsg]
      have hfull : processMsgs initGR (pre ++ [WMsg.resultMsg u]) =
          ({ (processMsgs initGR pre).1 with doneEmitted := true },
           (processMsgs initGR pre).2 ++
             [Ev.doneEv (u.getD ⟨0, 0⟩).input_tokens (u.getD ⟨0, 0⟩).output_tokens
                (processMsgs initGR pre).1.agentsUsed]) := by
        rw [processMsgs_append, htail]
      have hout : (generate_response true (pre ++ [WMsg.resultMsg u]) none).1 =
          (processMsgs initGR pre).2 ++
            [Ev.doneEv (u.getD ⟨0, 0⟩).input_tokens (u.getD ⟨0, 0⟩).output_tokens
               (processMsgs initGR pre).1.agentsUsed] := by
        simp [generate_response, hfull]
      refine ⟨?_, ⟨(u.getD ⟨0, 0⟩).input_tokens, (u.getD ⟨0, 0⟩).output_tokens,
        (processMsgs initGR pre).1.agentsUsed, ?_⟩, ?_, ?_⟩
      · rw [hout, List.countP_append, d0]
        rfl
      · rw [hout, List.getLast?_concat]
      · rw [hout, List.countP_append, e0]
        simp [List.countP_cons, isErrorEv]
      · intro _ hall _
        have := hall (WMsg.resultMsg u) (by simp)
        simp [isResultMsg] at this

/-- C1 amended, witness: the empty worker stream with no exception is
well-terminated, and the invocation on it yields the synthetic `done`. -/
theorem c1_terminal_amended_witness :
    WellTerminatedStream [] none ∧
    ((generate_response true [] none).1.countP isDoneEv = 1 ∧
     (∃ u v a, (generate_response true [] none).1.getLast? = some (Ev.doneEv u v a)) ∧
     (generate_response true [] none).1.countP isErrorEv ≤ 1 ∧
     (true = true → (∀ m ∈ ([] : List WMsg), isResultMsg m = false) →
        (none : Option GExc) = none →
       (generate_response true [] none).1 =
         (processMsgs initGR []).2 ++
           [Ev.doneEv 0 0 (processMsgs initGR []).1.agentsUsed])) :=
  ⟨by intro pre m post heq hres
      simp at heq,
   c1_terminal_amended true [] none
     (by intro pre m post heq hres
         simp at heq)⟩

/-! ### Provisioning failure leaves the pool unchanged (C3) -/

/-- C3: for a session with no pooled worker, every `get_or_create_worker`
call whose triggered creation fails re-raises that call's creation error,
and across any such sequence of calls the session-to-worker map never
gains an entry. -/
theorem c3_creation_failure_not_cached (p : Pool) (sid : String)
    (calls : List (Creation × Nat))
    (hnew : lookupWorker p sid = none)
    (hfail : ∀ cf ∈ calls, (startError cf.1).isSome = true) :
    (runCreateCalls p sid calls).1.workers = p.workers ∧
    (runCreateCalls p sid calls).2 =
      calls.map (fun cf => Except.error ((startError cf.1).getD "")) := by
  induction calls generalizing p with
  | nil => exact ⟨rfl, rfl⟩
  | cons cf cfs ih =>
    obtain ⟨e, he⟩ := Option.isSome_iff_exists.mp (hfail cf (by simp))
    have hone : get_or_create_worker p sid cf.1 cf.2 = (addLock p sid, .error e) := by
      simp [get_or_create_worker, hnew, he]
    have hnew2 : lookupWorker (addLock p sid) sid = none := by
      simp only [lookupWorker, addLock]
      split <;> exact hnew
    obtain ⟨ihw, ihr⟩ := ih (addLock p sid) hnew2 (fun x hx => hfail x (by simp [hx]))
    have haddw : (addLock p sid).workers = p.workers := by
      simp only [addLock]
      split <;> rfl
    constructor
    · simp only [runCreateCalls, hone]
      rw [ihw, haddw]
    · simp only [runCreateCalls, hone, List.map_cons]
      rw [ihr, he]
      rfl

/-- C3 witness: two concrete failing calls against an empty pool each
return their creation error and leave the worker map empty. -/
theorem c3_creation_failure_not_cached_witness :
    (runCreateCalls ⟨[], []⟩ "s1" [(Creation.sandboxFail, 0), (Creation.uploadFail, 1)]).1.workers
        = ([] : List (String × Nat)) ∧
    (runCreateCalls ⟨[], []⟩ "s1" [(Creation.sandboxFail, 0), (Creation.uploadFail, 1)]).2 =
      [(Creation.sandboxFail, (0 : Nat)), (Creation.uploadFail, 1)].map
        (fun cf => Except.error ((startError cf.1).getD "")) :=
  c3_creation_failure_not_cached ⟨[], []⟩ "s1"
    [(Creation.sandboxFail, 0), (Creation.uploadFail, 1)] rfl
    (by intro cf hcf
        simp only [List.mem_cons, List.mem_singleton] at hcf
        rcases hcf with rfl | rfl | hcf
        · rfl
        · rfl
        · cases hcf)

/-! ### Execution failure evicts the worker (C4) -/

/-- Adding a creation lock does not touch the worker map. -/
theorem addLock_workers (p : Pool) (sid : String) :
    (addLock p sid).workers = p.workers := by
  simp only [addLock]
  split <;> rfl

/-- After `remove_session_client`, the session has no pooled worker. -/
theorem lookupWorker_remove_self (p : Pool) (sid : String) :
    lookupWorker (remove_session_client p sid) sid = none := by
  simp only [lookupWorker, remove_session_client]
  rw [Option.map_eq_none', List.find?_eq_none]
  intro x hx
  rw [List.mem_filter] at hx
  simpa using hx.2

/-- A configured `generate_response` run calls `remove_session_client`
exactly when the stream ended with an exception. -/
theorem generate_response_removed (msgs : List WMsg) (exc : Option GExc) :
    (generate_response true msgs exc).2 = exc.isSome := by
  cases exc <;> simp [generate_response]

/-- `observedExc` is present whenever `_execute_query` raised. -/
theorem observedExc_of_error (items : List QItem) (e : Exc) :
    ∃ g, observedExc items (Except.error e) = some g := by
  unfold observedExc
  cases (streamOfItems items).2 with
  | none => exact ⟨_, rfl⟩
  | some x => exact ⟨_, rfl⟩

/-- C4: if the sandbox execution of a query fails — a truthy error in the
result dict or a non-zero exit code — then `_execute_query` raises a
`RuntimeError` (re-raised to the consumer of `query_and_stream`), the
query pipeline removes the session's worker from the pool, and the next
`get_or_create_worker` call for that session constructs and inserts a
fresh worker. -/
theorem c4_execution_failure_evicts (s : Settings) (p : Pool) (hist : List Turn)
    (sid message : String) (res : ExecResult) (fresh : Nat)
    (hcfg : s.anthropicConfigured = true)
    (hfail : errTruthy res.error = true ∨ res.exitCode ≠ 0) :
    (∃ m, (execute_query s hist message sid res).result =
        Except.error (Exc.runtimeError m)) ∧
    (runQuery s p hist sid message res).2.1 = remove_session_client p sid ∧
    lookupWorker (remove_session_client p sid) sid = none ∧
    (get_or_create_worker (remove_session_client p sid) sid Creation.ok fresh).2 =
        Except.ok fresh ∧
    (get_or_create_worker (remove_session_client p sid) sid Creation.ok fresh).1.workers =
        (remove_session_client p sid).workers ++ [(sid, fresh)] := by
  have h1 : ∃ m, (execute_query s hist message sid res).result =
      Except.error (Exc.runtimeError m) := by
    by_cases he : errTruthy res.error = true
    · exact ⟨"Sandbox execution failed: " ++ res.error.getD "",
        by simp [execute_query, he]⟩
    · rw [Bool.not_eq_true] at he
      rcases hfail with hf | hf
      · rw [he] at hf
        cases hf
      · exact ⟨"Sandbox script exited with code " ++ toString res.exitCode ++
          ". Stderr: " ++ stderrMsg res.stderrLines, by simp [execute_query, he, hf]⟩
  obtain ⟨m, hm⟩ := h1
  have h2 : (runQuery s p hist sid message res).2.1 = remove_session_client p sid := by
    simp only [runQuery]
    rw [hm, hcfg]
    obtain ⟨g, hg⟩ := observedExc_of_error (execute_query s hist message sid res).items
      (Exc.runtimeError m)
    rw [hg, generate_response_removed]
    rfl
  have h3 := lookupWorker_remove_self p sid
  refine ⟨⟨m, hm⟩, h2, h3, ?_, ?_⟩
  · simp [get_or_create_worker, h3, startError]
  · simp [get_or_create_worker, h3, startError, addLock_workers]

/-- C4 witness: a concrete failed execution (exit code 1) against a pool
holding the session's worker. -/
theorem c4_execution_failure_evicts_witness :
    (∃ m, (execute_query
        ⟨true, "k", "op", "so", 10, 5, "T", false, "", false, "", false, ""⟩
        [] "hello" "s1" ⟨[], [], 1, false, none⟩).result =
          Except.error (Exc.runtimeError m)) ∧
    (runQuery ⟨true, "k", "op", "so", 10, 5, "T", false, "", false, "", false, ""⟩
        ⟨[("s1", 7)], ["s1"]⟩ [] "s1" "hello" ⟨[], [], 1, false, none⟩).2.1 =
      remove_session_client ⟨[("s1", 7)], ["s1"]⟩ "s1" ∧
    lookupWorker (remove_session_client ⟨[("s1", 7)], ["s1"]⟩ "s1") "s1" = none ∧
    (get_or_create_worker (remove_session_client ⟨[("s1", 7)], ["s1"]⟩ "s1") "s1"
        Creation.ok 8).2 = Except.ok 8 ∧
    (get_or_create_worker (remove_session_client ⟨[("s1", 7)], ["s1"]⟩ "s1") "s1"
        Creation.ok 8).1.workers =
      (remove_session_client ⟨[("s1", 7)], ["s1"]⟩ "s1").workers ++ [("s1", 8)] :=
  c4_execution_failure_evicts
    ⟨true, "k", "op", "so", 10, 5, "T", false, "", false, "", false, ""⟩
    ⟨[("s1", 7)], ["s1"]⟩ [] "s1" "hello" ⟨[], [], 1, false, none⟩ 8 rfl
    (Or.inr (by decide))

/-! ### Timeout behaviour of `execute_streaming` (C5) -/

/-- C5 counterexample: a session-streaming execution whose log-streaming
wait runs for 700 time units against a 600-unit timeout completes
normally — the result does not have `timed_out` set, because no local
timeout bounds the log-streaming await. -/
theorem c5_timeout_counterexample :
    ¬ ((execute_streaming
          ⟨true, true, .ok 0 (some "cmd"), .ok 700 (), .ok 0 (some 0), .ok 0 0⟩
          600).elapsed > 600 →
       (execute_streaming
          ⟨true, true, .ok 0 (some "cmd"), .ok 700 (), .ok 0 (some 0), .ok 0 0⟩
          600).timedOut = true) := by
  decide

/-- C5 amended: `execute_streaming` reports `timed_out = true` exactly
when control reaches the synchronous `exec()` fallback and that call
raises `asyncio.TimeoutError`. In particular a timeout raised in the
session-streaming path is caught by the generic fallback handler (and
leads to `exec()`), and neither the log-streaming wait nor the `exec()`
call is bounded by the `timeout` argument, so an execution exceeding the
timeout may return with `timed_out = false`. -/
theorem c5_timeout_amended (env : StreamEnv) (timeout : Nat) :
    (execute_streaming env timeout).timedOut = true ↔
      (reachesFallback env = true ∧ isTimeoutCall env.execFallback = true) := by
  obtain ⟨se, sc, st, lg, ci, ef⟩ := env
  cases se <;> cases sc <;>
    simp only [execute_streaming, reachesFallback, execFallbackPath, isTimeoutCall] <;>
    rcases st with ⟨d, v⟩ | d | ⟨d, m⟩ <;>
    try rcases v with _ | cid
  all_goals (rcases lg with ⟨d2, u⟩ | d2 | ⟨d2, m2⟩ <;>
    rcases ci with ⟨d3, ec⟩ | d3 | ⟨d3, m3⟩ <;>
    try rcases ec with _ | ecv)
  all_goals (rcases ef with ⟨d4, e4⟩ | d4 | ⟨d4, m4⟩ <;> simp)

/-! ### Bounded proxy polling (C6) -/

/-- If the response file never appears, the polling loop returns the
structured timeout result, with its number of checks bounded by the
remaining time budget. -/
theorem pollLoop_never_file (file : FileOracle) (timeoutTicks : Nat)
    (hnever : ∀ t, file t = none) :
    ∀ (fuel elapsed : Nat),
      (pollLoop file timeoutTicks elapsed fuel).1 = proxyTimeoutJ ∧
      3 * (pollLoop file timeoutTicks elapsed fuel).2 ≤ (timeoutTicks - elapsed) + 2 := by
  intro fuel
  induction fuel with
  | zero =>
    exact fun elapsed =>
      ⟨rfl, by rw [show (pollLoop file timeoutTicks elapsed 0).2 = 0 from rfl]; omega⟩
  | succ fuel ih =>
    intro elapsed
    by_cases hel : elapsed < timeoutTicks
    · have hstep : pollLoop file timeoutTicks elapsed (fuel + 1) =
          ((pollLoop file timeoutTicks (elapsed + 3) fuel).1,
           (pollLoop file timeoutTicks (elapsed + 3) fuel).2 + 1) := by
        simp [pollLoop, hel, hnever elapsed]
      obtain ⟨ihv, ihc⟩ := ih (elapsed + 3)
      rw [hstep]
      refine ⟨ihv, ?_⟩
      by_cases hel3 : elapsed + 3 < timeoutTicks
      · omega
      · have hzero : (pollLoop file timeoutTicks (elapsed + 3) fuel).2 = 0 := by
          cases fuel with
          | zero => rfl
          | succ fuel2 => simp [pollLoop, hel3]
        rw [hzero]
        omega
    · simp [pollLoop, hel]

/-- C6: a proxy request whose response file never appears makes
`_slack_proxy_call` return the structured proxy-timeout dict within the
bounded budget: at most one existence check per poll interval across the
timeout window, never an unbounded wait. -/
theorem c6_proxy_poll_timeout (file : FileOracle) (timeoutSec : Nat)
    (hnever : ∀ t, file t = none) :
    (slack_proxy_poll file timeoutSec).1 = proxyTimeoutJ ∧
    3 * (slack_proxy_poll file timeoutSec).2 ≤ 10 * timeoutSec + 2 := by
  obtain ⟨h1, h2⟩ := pollLoop_never_file file (10 * timeoutSec) hnever
    (10 * timeoutSec + 1) 0
  unfold slack_proxy_poll
  exact ⟨h1, by omega⟩

/-- C6 witness: the default 30-second timeout with a file that never
appears returns the proxy-timeout dict after boundedly many checks. -/
theorem c6_proxy_poll_timeout_witness :
    (slack_proxy_poll (fun _ => none) 30).1 = proxyTimeoutJ ∧
    3 * (slack_proxy_poll (fun _ => none) 30).2 ≤ 10 * 30 + 2 :=
  c6_proxy_poll_timeout (fun _ => none) 30 (fun _ => rfl)

/-! ### The not-configured proxy short circuit (C7) -/

/-- C7: with Slack not configured, `_handle_slack_proxy` performs no HTTP
call and writes exactly `{"ok": false, "error": "slack_not_configured"}`
to `/tmp/slack_resp_{id}.json` — the very path `_slack_proxy_call` polls
for that request id. -/
theorem c7_not_configured_short_circuit (http : String → Except String J)
    (req : JObj) (i : String) (hid : req.id? = some i) :
    handle_slack_proxy false http req =
      ⟨[], "/tmp/slack_resp_" ++ i ++ ".json", slackNotConfiguredJ⟩ ∧
    backendSlackRespPath i = sandboxSlackRespPath i := by
  constructor
  · simp [handle_slack_proxy, hid, backendSlackRespPath]
  · rfl

/-- C7 witness: the spec scenario — request id `abc123`, method
`conversations.list` — with no credential configured. -/
theorem c7_not_configured_short_circuit_witness :
    handle_slack_proxy false (fun _ => Except.ok J.jnull)
        ⟨some "slack_proxy", none, none, none, none, none, none, none,
         some "abc123", some "conversations.list"⟩ =
      ⟨[], "/tmp/slack_resp_" ++ "abc123" ++ ".json", slackNotConfiguredJ⟩ ∧
    backendSlackRespPath "abc123" = sandboxSlackRespPath "abc123" :=
  c7_not_configured_short_circuit (fun _ => Except.ok J.jnull)
    ⟨some "slack_proxy", none, none, none, none, none, none, none,
     some "abc123", some "conversations.list"⟩ "abc123" rfl

/-! ### History round-trip (C8) -/

/-- The chunks accumulated over a query are exactly the `text_delta`
payloads of its stdout lines. -/
theorem query_chunks_eq (mo sid : String) (lines : List RawLine) :
    (processLines mo sid [] lines).1 = textDeltaPayloads lines :=
  processLines_chunks_eq mo sid [] lines

/-- C8: the `--history` argument of the sandbox command is the JSON array
of exactly the turns recorded before the current user message (the
current message is excluded); and when execution succeeds with at least
one `text_delta`, the concatenation of the `text_delta` payloads is
appended to the worker history as the assistant turn, after the user
turn. -/
theorem c8_history_round_trip (s : Settings) (hist : List Turn)
    (message sid : String) (res : ExecResult) :
    ((execute_query s hist message sid res).cmd[10]? = some (.lit "--history") ∧
     (execute_query s hist message sid res).cmd[11]? =
        some (.json (historyJ hist))) ∧
    (errTruthy res.error = false → res.exitCode = 0 →
      textDeltaPayloads res.stdoutLines ≠ [] →
      (execute_query s hist message sid res).newHistory =
        hist ++ [⟨"user", message⟩,
                 ⟨"assistant", String.join (textDeltaPayloads res.stdoutLines)⟩]) := by
  have hcmd : (execute_query s hist message sid res).cmd =
      buildCmdArgs s message sid hist := by
    have hdrop : (hist ++ [(⟨"user", message⟩ : Turn)]).dropLast = hist :=
      List.dropLast_concat
    simp only [execute_query]
    split
    · rw [hdrop]
    · split
      · rw [hdrop]
      · rw [hdrop]
  constructor
  · rw [hcmd]
    constructor
    · rw [buildCmdArgs,
          List.getElem?_append_left (by simp [List.length_append]),
          List.getElem?_append_left (by simp [List.length_append]),
          List.getElem?_append_left (by simp)]
      rfl
    · rw [buildCmdArgs,
          List.getElem?_append_left (by simp [List.length_append]),
          List.getElem?_append_left (by simp [List.length_append]),
          List.getElem?_append_left (by simp)]
      rfl
  · intro herr hexit hchunks
    have hch : (processLines s.anthropicModelOpus sid [] res.stdoutLines).1 =
        textDeltaPayloads res.stdoutLines := query_chunks_eq _ _ _
    simp only [execute_query, herr, hexit]
    simp only [Bool.false_eq_true, if_false, ne_eq, not_true_eq_false, if_neg,
      not_false_eq_true]
    rw [hch]
    rw [if_neg (by simpa [List.isEmpty_iff] using hchunks)]
    simp

/-- C8 witness: a prior two-turn history and a successful execution
streaming two `text_delta` lines. -/
theorem c8_history_round_trip_witness :
    (((execute_query ⟨true, "k", "op", "so", 10, 5, "T", false, "", false, "", false, ""⟩
        [⟨"user", "hi"⟩, ⟨"assistant", "yo"⟩] "next" "s1"
        ⟨[RawLine.jsonObj ⟨some "text_delta", some "Hello", none, none, none, none,
            none, none, none, none⟩,
          RawLine.jsonObj ⟨some "text_delta", some " world", none, none, none, none,
            none, none, none, none⟩], [], 0, false, none⟩).cmd[10]? =
        some (.lit "--history") ∧
      (execute_query ⟨true, "k", "op", "so", 10, 5, "T", false, "", false, "", false, ""⟩
        [⟨"user", "hi"⟩, ⟨"assistant", "yo"⟩] "next" "s1"
        ⟨[RawLine.jsonObj ⟨some "text_delta", some "Hello", none, none, none, none,
            none, none, none, none⟩,
          RawLine.jsonObj ⟨some "text_delta", some " world", none, none, none, none,
            none, none, none, none⟩], [], 0, false, none⟩).cmd[11]? =
        some (.json (historyJ [⟨"user", "hi"⟩, ⟨"assistant", "yo"⟩]))) ∧
     (execute_query ⟨true, "k", "op", "so", 10, 5, "T", false, "", false, "", false, ""⟩
        [⟨"user", "hi"⟩, ⟨"assistant", "yo"⟩] "next" "s1"
        ⟨[RawLine.jsonObj ⟨some "text_delta", some "Hello", none, none, none, none,
            none, none, none, none⟩,
          RawLine.jsonObj ⟨some "text_delta", some " world", none, none, none, none,
            none, none, none, none⟩], [], 0, false, none⟩).newHistory =
       [⟨"user", "hi"⟩, ⟨"assistant", "yo"⟩] ++
         [⟨"user", "next"⟩, ⟨"assistant", String.join (textDeltaPayloads
           [RawLine.jsonObj ⟨some "text_delta", some "Hello", none, none, none, none,
              none, none, none, none⟩,
            RawLine.jsonObj ⟨some "text_delta", some " world", none, none, none, none,
              none, none, none, none⟩])⟩]) ∧
    String.join (textDeltaPayloads
        [RawLine.jsonObj ⟨some "text_delta", some "Hello", none, none, none, none,
           none, none, none, none⟩,
         RawLine.jsonObj ⟨some "text_delta", some " world", none, none, none, none,
           none, none, none, none⟩]) = "Hello world" :=
  ⟨⟨(c8_history_round_trip _ _ _ _ _).1,
    (c8_history_round_trip _ _ _ _ _).2 rfl rfl (by simp [textDeltaPayloads])⟩,
   rfl⟩

/-! ### Runner argument parsing (C10) -/

/-- C10: in the sandbox runner's entry point, an unparseable `--history`
is tolerated (the runner proceeds with an empty history list), while an
unparseable `--config` is fatal: the runner emits an error event, then a
done event, and exits with status 1 without running the agent. -/
theorem c10_runner_argument_parsing :
    (∀ c : J, sandboxMain (some c) none = .runsAgent c (.jarr [])) ∧
    (∀ h : Option J, sandboxMain none h =
      .exitEarly [emitErrorJ "Invalid configuration JSON" false, emitDoneDefaultJ] 1) :=
  ⟨fun _ => rfl, fun _ => rfl⟩

/-! ### The creation race (C9) -/

/-- The invariant holds initially. -/
theorem raceInv_init (n : Nat) : RaceInv (raceInit n) := by
  constructor <;> intros <;> simp_all [raceInit, isCreatingPC]

/-- The invariant is preserved by every interleaving step. -/
theorem raceInv_step {n : Nat} {s s' : RaceState n} (hinv : RaceInv s)
    (hstep : RaceStep s s') : RaceInv s' := by
  cases hstep with
  | entryFound i w hpc hw =>
    refine ⟨?_, ?_, hinv.noworker_noprov, ?_, hinv.worker_con, ?_, hinv.worker_prov, ?_⟩
    · intro j hj
      have hj2 : isCreatingPC (Function.update s.pcs i (CallerPC.finished w) j) = true := hj
      by_cases hji : j = i
      · subst hji
        rw [Function.update_same] at hj2
        simp [isCreatingPC] at hj2
      · rw [Function.update_noteq hji] at hj2
        exact hinv.creating_owner j hj2
    · intro j hj
      have hj2 : isCreatingPC (Function.update s.pcs i (CallerPC.finished w) j) = true := hj
      by_cases hji : j = i
      · subst hji
        rw [Function.update_same] at hj2
        simp [isCreatingPC] at hj2
      · rw [Function.update_noteq hji] at hj2
        exact hinv.creating_noworker j hj2
    · intro hwn
      have hwn2 : s.worker = none := hwn
      rw [hw] at hwn2
      exact absurd hwn2 (by simp)
    · intro j hj
      have hj2 : isCreatingPC (Function.update s.pcs i (CallerPC.finished w) j) = true := hj
      by_cases hji : j = i
      · subst hji
        rw [Function.update_same] at hj2
        simp [isCreatingPC] at hj2
      · rw [Function.update_noteq hji] at hj2
        exact hinv.creating_con j hj2
    · intro j w' hj
      have hj2 : Function.update s.pcs i (CallerPC.finished w) j = CallerPC.finished w' := hj
      by_cases hji : j = i
      · subst hji
        rw [Function.update_same] at hj2
        injection hj2 with hww
        show s.worker = some w'
        rw [← hww]
        exact hw
      · rw [Function.update_noteq hji] at hj2
        exact hinv.finished_worker j w' hj2
  | entryWait i j0 hpc hw hl =>
    refine ⟨?_, ?_, hinv.noworker_noprov, ?_, hinv.worker_con, ?_, hinv.worker_prov, ?_⟩
    · intro j hj
      have hj2 : isCreatingPC (Function.update s.pcs i CallerPC.waiting j) = true := hj
      by_cases hji : j = i
      · subst hji
        rw [Function.update_same] at hj2
        simp [isCreatingPC] at hj2
      · rw [Function.update_noteq hji] at hj2
        exact hinv.creating_owner j hj2
    · intro j hj
      have hj2 : isCreatingPC (Function.update s.pcs i CallerPC.waiting j) = true := hj
      by_cases hji : j = i
      · subst hji
        rw [Function.update_same] at hj2
        simp [isCreatingPC] at hj2
      · rw [Function.update_noteq hji] at hj2
        exact hinv.creating_noworker j hj2
    · intro hwn hnc
      refine hinv.idle_nocon hwn ?_
      intro j
      by_cases hji : j = i
      · subst hji
        rw [hpc]
        rfl
      · have h3 : isCreatingPC (Function.update s.pcs i CallerPC.waiting j) = false := hnc j
        rwa [Function.update_noteq hji] at h3
    · intro j hj
      have hj2 : isCreatingPC (Function.update s.pcs i CallerPC.waiting j) = true := hj
      by_cases hji : j = i
      · subst hji
        rw [Function.update_same] at hj2
        simp [isCreatingPC] at hj2
      · rw [Function.update_noteq hji] at hj2
        exact hinv.creating_con j hj2
    · intro j w' hj
      have hj2 : Function.update s.pcs i CallerPC.waiting j = CallerPC.finished w' := hj
      by_cases hji : j = i
      · subst hji
        rw [Function.update_same] at hj2
        exact absurd hj2 (by simp)
      · rw [Function.update_noteq hji] at hj2
        exact hinv.finished_worker j w' hj2
  | entryConstruct i hpc hw hl =>
    have hnc : ∀ j, isCreatingPC (s.pcs j) = false := by
      intro j
      by_contra hc
      rw [Bool.not_eq_false] at hc
      have h2 := hinv.creating_owner j hc
      rw [hl] at h2
      exact absurd h2 (by simp)
    have hcon0 : s.constructed = 0 := hinv.idle_nocon hw hnc
    refine ⟨?_, fun _ _ => hw, fun _ => hinv.noworker_noprov hw, ?_, ?_, ?_, ?_, ?_⟩
    · intro j hj
      have hj2 : isCreatingPC (Function.update s.pcs i (CallerPC.creating s.nextId) j)
          = true := hj
      by_cases hji : j = i
      · subst hji
        rfl
      · rw [Function.update_noteq hji] at hj2
        rw [hnc j] at hj2
        exact absurd hj2 (by simp)
    · intro hwn hncz
      have h2 : isCreatingPC (Function.update s.pcs i (CallerPC.creating s.nextId) i)
          = false := hncz i
      rw [Function.update_same] at h2
      simp [isCreatingPC] at h2
    · intro w' hw'
      have hw2 : s.worker = some w' := hw'
      rw [hw] at hw2
      exact absurd hw2 (by simp)
    · intro j hj
      show s.constructed + 1 = 1
      omega
    · intro w' hw'
      have hw2 : s.worker = some w' := hw'
      rw [hw] at hw2
      exact absurd hw2 (by simp)
    · intro j w' hj
      have hj2 : Function.update s.pcs i (CallerPC.creating s.nextId) j
          = CallerPC.finished w' := hj
      by_cases hji : j = i
      · subst hji
        rw [Function.update_same] at hj2
        exact absurd hj2 (by simp)
      · rw [Function.update_noteq hji] at hj2
        have h2 := hinv.finished_worker j w' hj2
        rw [hw] at h2
        exact absurd h2 (by simp)
  | wakeFound i w hpc hl hw =>
    refine ⟨?_, ?_, hinv.noworker_noprov, ?_, hinv.worker_con, ?_, hinv.worker_prov, ?_⟩
    · intro j hj
      have hj2 : isCreatingPC (Function.update s.pcs i (CallerPC.finished w) j) = true := hj
      by_cases hji : j = i
      · subst hji
        rw [Function.update_same] at hj2
        simp [isCreatingPC] at hj2
      · rw [Function.update_noteq hji] at hj2
        exact hinv.creating_owner j hj2
    · intro j hj
      have hj2 : isCreatingPC (Function.update s.pcs i (CallerPC.finished w) j) = true := hj
      by_cases hji : j = i
      · subst hji
        rw [Function.update_same] at hj2
        simp [isCreatingPC] at hj2
      · rw [Function.update_noteq hji] at hj2
        exact hinv.creating_noworker j hj2
    · intro hwn
      have hwn2 : s.worker = none := hwn
      rw [hw] at hwn2
      exact absurd hwn2 (by simp)
    · intro j hj
      have hj2 : isCreatingPC (Function.update s.pcs i (CallerPC.finished w) j) = true := hj
      by_cases hji : j = i
      · subst hji
        rw [Function.update_same] at hj2
        simp [isCreatingPC] at hj2
      · rw [Function.update_noteq hji] at hj2
        exact hinv.creating_con j hj2
    · intro j w' hj
      have hj2 : Function.update s.pcs i (CallerPC.finished w) j = CallerPC.finished w' := hj
      by_cases hji : j = i
      · subst hji
        rw [Function.update_same] at hj2
        injection hj2 with hww
        show s.worker = some w'
        rw [← hww]
        exact hw
      · rw [Function.update_noteq hji] at hj2
        exact hinv.finished_worker j w' hj2
  | wakeConstruct i hpc hl hw =>
    have hnc : ∀ j, isCreatingPC (s.pcs j) = false := by
      intro j
      by_contra hc
      rw [Bool.not_eq_false] at hc
      have h2 := hinv.creating_owner j hc
      rw [hl] at h2
      exact absurd h2 (by simp)
    have hcon0 : s.constructed = 0 := hinv.idle_nocon hw hnc
    refine ⟨?_, fun _ _ => hw, fun _ => hinv.noworker_noprov hw, ?_, ?_, ?_, ?_, ?_⟩
    · intro j hj
      have hj2 : isCreatingPC (Function.update s.pcs i (CallerPC.creating s.nextId) j)
          = true := hj
      by_cases hji : j = i
      · subst hji
        rfl
      · rw [Function.update_noteq hji] at hj2
        rw [hnc j] at hj2
        exact absurd hj2 (by simp)
    · intro hwn hncz
      have h2 : isCreatingPC (Function.update s.pcs i (CallerPC.creating s.nextId) i)
          = false := hncz i
      rw [Function.update_same] at h2
      simp [isCreatingPC] at h2
    · intro w' hw'
      have hw2 : s.worker = some w' := hw'
      rw [hw] at hw2
      exact absurd hw2 (by simp)
    · intro j hj
      show s.constructed + 1 = 1
      omega
    · intro w' hw'
      have hw2 : s.worker = some w' := hw'
      rw [hw] at hw2
      exact absurd hw2 (by simp)
    · intro j w' hj
      have hj2 : Function.update s.pcs i (CallerPC.creating s.nextId) j
          = CallerPC.finished w' := hj
      by_cases hji : j = i
      · subst hji
        rw [Function.update_same] at hj2
        exact absurd hj2 (by simp)
      · rw [Function.update_noteq hji] at hj2
        have h2 := hinv.finished_worker j w' hj2
        rw [hw] at h2
        exact absurd h2 (by simp)
  | finishStart i w hpc =>
    have hcre : isCreatingPC (s.pcs i) = true := by rw [hpc]; rfl
    have hlock : s.lockOwner = some i := hinv.creating_owner i hcre
    have hwn : s.worker = none := hinv.creating_noworker i hcre
    have hprov0 : s.provisioned = 0 := hinv.noworker_noprov hwn
    have hcon1 : s.constructed = 1 := hinv.creating_con i hcre
    have honly : ∀ j, j ≠ i → isCreatingPC (s.pcs j) = false := by
      intro j hji
      by_contra hc
      rw [Bool.not_eq_false] at hc
      have h2 := hinv.creating_owner j hc
      rw [hlock] at h2
      injection h2 with hji2
      exact hji hji2.symm
    refine ⟨?_, ?_, ?_, ?_, fun _ _ => hcon1, fun _ _ => hcon1, ?_, ?_⟩
    · intro j hj
      have hj2 : isCreatingPC (Function.update s.pcs i (CallerPC.finished w) j) = true := hj
      by_cases hji : j = i
      · subst hji
        rw [Function.update_same] at hj2
        simp [isCreatingPC] at hj2
      · rw [Function.update_noteq hji] at hj2
        rw [honly j hji] at hj2
        exact absurd hj2 (by simp)
    · intro j hj
      have hj2 : isCreatingPC (Function.update s.pcs i (CallerPC.finished w) j) = true := hj
      by_cases hji : j = i
      · subst hji
        rw [Function.update_same] at hj2
        simp [isCreatingPC] at hj2
      · rw [Function.update_noteq hji] at hj2
        rw [honly j hji] at hj2
        exact absurd hj2 (by simp)
    · intro hwz
      have hwz2 : some w = none := hwz
      exact absurd hwz2 (by simp)
    · intro hwz
      have hwz2 : some w = none := hwz
      exact absurd hwz2 (by simp)
    · intro w' hw'
      show s.provisioned + 1 = 1
      omega
    · intro j w' hj
      have hj2 : Function.update s.pcs i (CallerPC.finished w) j = CallerPC.finished w' := hj
      by_cases hji : j = i
      · subst hji
        rw [Function.update_same] at hj2
        injection hj2 with hww
        show some w = some w'
        rw [hww]
      · rw [Function.update_noteq hji] at hj2
        have h2 := hinv.finished_worker j w' hj2
        rw [hwn] at h2
        exact absurd h2 (by simp)

/-- Every reachable race state satisfies the invariant. -/
theorem raceInv_reachable {n : Nat} {s : RaceState n} (h : RaceReachable s) :
    RaceInv s := by
  induction h with
  | refl => exact raceInv_init n
  | tail hr hstep ih => exact raceInv_step ih hstep

/-- C9: from a brand-new session, any interleaving of any number of
concurrent `get_or_create_worker` callers that all complete constructs
exactly one worker, provisions exactly one sandbox, and hands every
caller the same worker. -/
theorem c9_concurrent_creation_race_free {n : Nat} (s : RaceState n)
    (hreach : RaceReachable s)
    (hdone : ∀ i, ∃ w, s.pcs i = .finished w) (hn : 0 < n) :
    s.constructed = 1 ∧ s.provisioned = 1 ∧
    ∃ w, s.worker = some w ∧ ∀ i, s.pcs i = .finished w := by
  have hinv := raceInv_reachable hreach
  obtain ⟨w0, hw0⟩ := hdone ⟨0, hn⟩
  have hwork : s.worker = some w0 := hinv.finished_worker _ w0 hw0
  refine ⟨hinv.worker_con w0 hwork, hinv.worker_prov w0 hwork, w0, hwork, ?_⟩
  intro i
  obtain ⟨wi, hwi⟩ := hdone i
  have hsw : s.worker = some wi := hinv.finished_worker i wi hwi
  rw [hwork] at hsw
  injection hsw with hww
  rw [hwi, hww]

/-- C9 witness: one caller against a brand-new session, running
construction and start to completion, ends with one constructed worker,
one provisioned sandbox, and that worker returned. -/
theorem c9_concurrent_creation_race_free_witness :
    (⟨some 0, none,
      Function.update (Function.update (fun _ => CallerPC.entry) (0 : Fin 1)
        (CallerPC.creating 0)) (0 : Fin 1) (CallerPC.finished 0),
      1, 1, 1⟩ : RaceState 1).constructed = 1 ∧
    (⟨some 0, none,
      Function.update (Function.update (fun _ => CallerPC.entry) (0 : Fin 1)
        (CallerPC.creating 0)) (0 : Fin 1) (CallerPC.finished 0),
      1, 1, 1⟩ : RaceState 1).provisioned = 1 ∧
    ∃ w, (⟨some 0, none,
      Function.update (Function.update (fun _ => CallerPC.entry) (0 : Fin 1)
        (CallerPC.creating 0)) (0 : Fin 1) (CallerPC.finished 0),
      1, 1, 1⟩ : RaceState 1).worker = some w ∧
      ∀ i, (⟨some 0, none,
        Function.update (Function.update (fun _ => CallerPC.entry) (0 : Fin 1)
          (CallerPC.creating 0)) (0 : Fin 1) (CallerPC.finished 0),
        1, 1, 1⟩ : RaceState 1).pcs i = .finished w :=
  c9_concurrent_creation_race_free _
    (Relation.ReflTransGen.tail
      (Relation.ReflTransGen.tail Relation.ReflTransGen.refl
        (RaceStep.entryConstruct (raceInit 1) 0 rfl rfl rfl))
      (RaceStep.finishStart _ 0 0 (by simp [raceInit])))
    (fun i => ⟨0, by
      have h0 : i = 0 := Subsingleton.elim i 0
      rw [h0]
      simp⟩)
    (by decide)

/-- C2 amended, witness: a concrete five-line stream — diagnostics, an
unrecognized type, a proxy request, a bare number, a text delta —
enqueues exactly the per-line translations. -/
theorem c2_translation_amended_witness :
    (processLines "claude-opus-4" "s1" []
        [RawLine.notJson "pip warning",
         RawLine.jsonObj ⟨some "mystery", none, none, none, none, none, none, none,
           none, none⟩,
         RawLine.jsonObj ⟨some "slack_proxy", none, none, none, none, none, none, none,
           some "abc", some "conversations.list"⟩,
         RawLine.jsonNonObj (J.jnum 5),
         RawLine.jsonObj ⟨some "text_delta", some "hi", none, none, none, none, none,
           none, none, none⟩]).2.1 =
      [RawLine.notJson "pip warning",
       RawLine.jsonObj ⟨some "mystery", none, none, none, none, none, none, none,
         none, none⟩,
       RawLine.jsonObj ⟨some "slack_proxy", none, none, none, none, none, none, none,
         some "abc", some "conversations.list"⟩,
       RawLine.jsonNonObj (J.jnum 5),
       RawLine.jsonObj ⟨some "text_delta", some "hi", none, none, none, none, none,
         none, none, none⟩].flatMap (visibleItems "claude-opus-4" "s1") ∧
    visibleItems "claude-opus-4" "s1" (.notJson "pip warning") = [] ∧
    visibleItems "claude-opus-4" "s1"
      (.jsonObj ⟨some "mystery", none, none, none, none, none, none, none,
        none, none⟩) = [] ∧
    visibleItems "claude-opus-4" "s1"
      (.jsonObj ⟨some "slack_proxy", none, none, none, none, none, none, none,
        some "abc", some "conversations.list"⟩) = [] ∧
    visibleItems "claude-opus-4" "s1" (.jsonNonObj (J.jnum 5)) =
      [QItem.excItem (.attributeError (pyTypeName (J.jnum 5)) "get")] :=
  ⟨(c2_translation_amended "claude-opus-4" "s1").1 [] _,
   (c2_translation_amended "claude-opus-4" "s1").2.1 "pip warning",
   (c2_translation_amended "claude-opus-4" "s1").2.2.1
     ⟨some "mystery", none, none, none, none, none, none, none, none, none⟩
     (by decide),
   (c2_translation_amended "claude-opus-4" "s1").2.2.2.1
     ⟨some "slack_proxy", none, none, none, none, none, none, none,
       some "abc", some "conversations.list"⟩ rfl,
   (c2_translation_amended "claude-opus-4" "s1").2.2.2.2 (J.jnum 5)⟩

end Velocity
